import Mathlib

/-!
Verification of the asset-collection and IAM-merge pipeline of the
compliance-checks repository.

The definitions below are a shallow embedding of the pure cores of
`app/instances.py`, `app/buckets.py`, `app/gcp_helper.py` and
`app/helper.py`.  Network fetches are abstracted by passing the fetched
asset lists as arguments; the possibility that the body of a
`try:`/`except:` block raises at run time is abstracted by an explicit
oracle `raises : Nat → Option String` giving, per loop index, the
exception message (`none` = the body does not raise).  Python truthiness
of optional string fields (`None` and `""` are falsy) is made explicit.
-/

namespace ComplianceChecks

/-- Python truthiness of an `Optional[str]` field: `None` and `""` are falsy. -/
def pyTruthyStr : Option String → Bool
  | none => false
  | some s => s != ""

/-- Python `s.startswith(pre)`. -/
def pyStartsWith (s pre : String) : Bool := pre.data.isPrefixOf s.data

/-- Python `s.endswith(suf)`. -/
def pyEndsWith (s suf : String) : Bool := suf.data.isSuffixOf s.data

/-- Python `s.split(sep)` for a one-character separator, on character lists. -/
def splitCharList (sep : Char) : List Char → List (List Char)
  | [] => [[]]
  | c :: rest =>
      if c = sep then [] :: splitCharList sep rest
      else
        match splitCharList sep rest with
        | [] => [[c]]
        | h :: t => (c :: h) :: t

/-- Python `s.split(sep)` for a one-character separator. -/
def pySplitChar (s : String) (sep : Char) : List String :=
  (splitCharList sep s.data).map String.mk

/-- Python `sub in s` (substring containment), on character lists. -/
def containsSubList (sub : List Char) : List Char → Bool
  | [] => sub.isEmpty
  | c :: rest => sub.isPrefixOf (c :: rest) || containsSubList sub rest

/-- Python `sub in s` (substring containment). -/
def pyContains (s sub : String) : Bool := containsSubList sub.data s.data

/-- Python `s.replace(pat, rep)` for a non-empty pattern, on character lists:
replaces every non-overlapping occurrence, scanning left to right. -/
def replaceAllList (p : Char) (ps rep : List Char) : List Char → List Char
  | [] => []
  | c :: rest =>
      if (p :: ps).isPrefixOf (c :: rest) then
        rep ++ replaceAllList p ps rep (rest.drop ps.length)
      else c :: replaceAllList p ps rep rest
termination_by l => l.length
decreasing_by
  · simp only [List.length_drop, List.length_cons]; omega
  · simp only [List.length_cons]; omega

/-- Python `s.replace(pat, rep)`; the empty-pattern case never arises in the
embedded code (the one call site uses the literal `".iam.gserviceaccount.com"`). -/
def pyReplace (s pat rep : String) : String :=
  match pat.data with
  | [] => s
  | p :: ps => ⟨replaceAllList p ps rep.data s.data⟩

/-- An IAM binding as read from the Asset API protos: `b.role` and `list(b.members)`. -/
structure IamBinding where
  role : String
  members : List String
deriving Repr, DecidableEq

/-- An IAM policy proto: the merge code only reads `.bindings`. -/
structure VmIamPolicy where
  bindings : List IamBinding
deriving Repr, DecidableEq

/-- A RESOURCE-content asset entry; the merge reads `asset.name` and `asset.asset_type`. -/
structure ResourceAsset where
  name : String
  asset_type : String
deriving Repr, DecidableEq

/-- An IAM_POLICY-content asset entry; the merge reads `a.name` and `a.iam_policy`.
`iam_policy = none` models an asset whose `iam_policy` field is unset/falsy. -/
structure IamAsset where
  name : String
  iam_policy : Option VmIamPolicy
deriving Repr, DecidableEq

/-- The dictionary `{"bindings": [...]}` returned by `extract_bindings`. -/
structure BindingsDict where
  bindings : List IamBinding
deriving Repr, DecidableEq

/-- `extract_bindings` (instances.py:28-31, gcp_helper.py:175-179):
returns `{"bindings": [{"role": b.role, "members": list(b.members)} ...]}`
when `iam_policy` is truthy and has a non-empty `bindings` list, else `None`. -/
def extract_bindings : Option VmIamPolicy → Option BindingsDict
  | some p =>
      if p.bindings.isEmpty then none
      else some ⟨p.bindings.map (fun b => ⟨b.role, b.members⟩)⟩
  | none => none

/-- The per-VM record `VMPolicy` (instances.py:14-19); in gcp_helper.py the same
fields are assembled as a plain dict. -/
structure VMPolicy where
  project_id : String
  resource_name : String
  asset_type : String
  policy : Option BindingsDict
  error : Option String
deriving Repr, DecidableEq

/-- `ProjectPoliciesResponse` (instances.py:21-25). -/
structure ProjectPoliciesResponse where
  project_id : String
  policies : List VMPolicy
  total_policies : Nat
  errors : List String
deriving Repr, DecidableEq

/-- Lookup in `iam_dict = {a.name: a.iam_policy for a in iam_assets if a.iam_policy}`
(instances.py:71, gcp_helper.py:334).  Python dict comprehension semantics: a later
entry with the same name overwrites an earlier one, and entries whose `iam_policy`
is falsy are never inserted.  The recursion consults the tail (later entries)
first; an uninserted entry falls through because its `iam_policy` is `none`. -/
def iamDictLookup : List IamAsset → String → Option VmIamPolicy
  | [], _ => none
  | a :: rest, n =>
      match iamDictLookup rest n with
      | some p => some p
      | none => if n = a.name then a.iam_policy else none

/-- The record built in the `try:` body of the merge loop
(instances.py:78-90, gcp_helper.py:340-352): `policy` is `None` unless
`asset.name in iam_dict`, in which case it is `extract_bindings(iam_dict[asset.name])`. -/
def vmRecordOf (project_id : String) (d : String → Option VmIamPolicy)
    (asset : ResourceAsset) : VMPolicy :=
  let policy : Option BindingsDict :=
    match d asset.name with
    | some p => extract_bindings (some p)
    | none => none
  { project_id := project_id
    resource_name := asset.name
    asset_type := asset.asset_type
    policy := policy
    error := none }

/-- The merge loop `for asset in resource_assets:` (instances.py:77-94,
gcp_helper.py:339-357).  On success the record is appended to `policies`;
when the body raises (oracle `raises i = some msg`) the except-branch appends
`f"Failed to process VM instance {name}: {msg}"` to `errors` and the record
is not emitted.  The loop index `i` tracks the position in `resource_assets`. -/
def vmMergeLoop (project_id : String) (d : String → Option VmIamPolicy)
    (raises : Nat → Option String) : Nat → List ResourceAsset →
    List VMPolicy × List String
  | _, [] => ([], [])
  | i, asset :: rest =>
      let acc := vmMergeLoop project_id d raises (i + 1) rest
      match raises i with
      | none => (vmRecordOf project_id d asset :: acc.1, acc.2)
      | some msg =>
          (acc.1, ("Failed to process VM instance " ++ asset.name ++ ": " ++ msg) :: acc.2)

/-- `fetch_vm_iam_policies_asset_api` (instances.py:34-103, gcp_helper.py:299-367),
its pure merge core: the two fetched asset lists are passed in, the response is
assembled exactly as at instances.py:98-103. -/
def fetch_vm_iam_policies_asset_api (project_id : String)
    (resource_assets : List ResourceAsset) (iam_assets : List IamAsset)
    (raises : Nat → Option String) : ProjectPoliciesResponse :=
  let d := iamDictLookup iam_assets
  let pe := vmMergeLoop project_id d raises 0 resource_assets
  { project_id := project_id
    policies := pe.1
    total_policies := pe.1.length
    errors := pe.2 }

/-- Result of `extract_ancestors_info` (gcp_helper.py:24-39). -/
structure AncestorsInfo where
  project_number : String
  organization_id : String
deriving Repr, DecidableEq

/-- The id segment `ancestor.split("/")[1]`; the `startswith` guard at the call
sites guarantees the segment exists, so the default is never used there. -/
def ancestorSeg (s : String) : String := (pySplitChar s '/').getD 1 ""

/-- One iteration of the `for ancestor in asset.ancestors:` loop
(gcp_helper.py:30-34): each matching ancestor overwrites the field. -/
def extractStep (info : AncestorsInfo) (ancestor : String) : AncestorsInfo :=
  if pyStartsWith ancestor "projects/" then
    { info with project_number := ancestorSeg ancestor }
  else if pyStartsWith ancestor "organizations/" then
    { info with organization_id := ancestorSeg ancestor }
  else info

/-- `extract_ancestors_info` (gcp_helper.py:24-39): scans ancestors, starting
from `"unknown"`/`"unknown"`; an empty ancestor list skips the loop. -/
def extract_ancestors_info (ancestors : List String) : AncestorsInfo :=
  ancestors.foldl extractStep ⟨"unknown", "unknown"⟩

/-- Condition of the `projects/` branch of the ancestors loop. -/
def isProjAncestor (s : String) : Bool := pyStartsWith s "projects/"

/-- Condition of the `organizations/` branch of the ancestors loop (an `elif`,
so it requires the `projects/` branch not to have fired). -/
def isOrgAncestor (s : String) : Bool :=
  !(pyStartsWith s "projects/") && pyStartsWith s "organizations/"

/-- The last element of the list satisfying `p`, if any. -/
def lastMatch (p : String → Bool) : List String → Option String
  | [] => none
  | a :: rest =>
      match lastMatch p rest with
      | some x => some x
      | none => if p a then some a else none

/-- The policy dictionary assembled at gcp_helper.py:501-505: `version` and
`etag` come from `.get` on a dict that never carries those keys, hence `None`. -/
structure FolderVmPolicyDict where
  bindings : List IamBinding
  version : Option String
  etag : Option String
deriving Repr, DecidableEq

/-- An IAM_POLICY asset as consumed by `fetch_vm_instances_folder_org`:
`asset.name`, `asset.asset_type`, `asset.ancestors`, `asset.iam_policy`. -/
structure FolderAsset where
  name : String
  asset_type : String
  ancestors : List String
  iam_policy : Option VmIamPolicy
deriving Repr, DecidableEq

/-- The per-instance record assembled at gcp_helper.py:507-517. -/
structure InstanceRecord where
  parent_scope : String
  project_number : String
  organization_id : String
  instance_name : String
  zone : String
  asset_name : String
  asset_type : String
  policy : Option FolderVmPolicyDict
  timestamp : String
deriving Repr, DecidableEq

/-- The try-body of the per-asset loop of `fetch_vm_instances_folder_org`
(gcp_helper.py:482-519): ancestor extraction, name parsing
(`name_parts[-1]` behind a `len > 0` guard, `name_parts[3]` behind a
`len > 3` guard), and policy processing; `now` stands for
`datetime.utcnow().isoformat()`. -/
def process_vm_instance_asset (parent now : String) (asset : FolderAsset) :
    InstanceRecord :=
  let info := extract_ancestors_info asset.ancestors
  let name_parts := pySplitChar asset.name '/'
  let instance_name :=
    if name_parts.length > 0 then (name_parts.getLast?).getD "unknown"
    else "unknown"
  let zone :=
    if name_parts.length > 3 then name_parts.getD 3 "unknown" else "unknown"
  let policy : Option FolderVmPolicyDict :=
    match asset.iam_policy with
    | some p =>
        if p.bindings.isEmpty then none
        else
          match extract_bindings (some p) with
          | some bd => some ⟨bd.bindings, none, none⟩
          | none => none
    | none => none
  { parent_scope := parent
    project_number := info.project_number
    organization_id := info.organization_id
    instance_name := instance_name
    zone := zone
    asset_name := asset.name
    asset_type := asset.asset_type
    policy := policy
    timestamp := now }

namespace Buckets

/-- A bucket Asset API entry as consumed by `fetch_bucket_iam` (buckets.py:28-45). -/
structure BucketAsset where
  name : String
  asset_type : String
  iam_policy : Option VmIamPolicy
deriving Repr, DecidableEq

/-- The `policy` dict of a bucket record: `{"bindings": bs}` carries the key,
the empty dict `{}` (used when the bindings list is empty) does not. -/
structure BucketDict where
  bindings : Option (List IamBinding)
deriving Repr, DecidableEq

/-- `BucketPolicy` (buckets.py:14-19). -/
structure BucketPolicy where
  project_id : String
  resource_name : String
  asset_type : String
  policy : Option BucketDict
  error : Option String
deriving Repr, DecidableEq

/-- `ProjectPoliciesResponse` (buckets.py:21-25). -/
structure ProjectPoliciesResponse where
  project_id : String
  policies : List BucketPolicy
  total_policies : Nat
  errors : List String
deriving Repr, DecidableEq

/-- `fetch_bucket_iam` (buckets.py:28-45): builds the record, catching any
exception of its own try-body itself and returning a record with the message
in the per-resource `error` field (`raise?` is the oracle for the body
raising with message `str(e)`). -/
def fetch_bucket_iam (asset : BucketAsset) (project_id : String)
    (raise? : Option String) : BucketPolicy :=
  match raise? with
  | none =>
      let bindings :=
        match asset.iam_policy with
        | some p => p.bindings.map (fun b => ⟨b.role, b.members⟩)
        | none => []
      { project_id := project_id
        resource_name := asset.name
        asset_type := asset.asset_type
        policy := if bindings.isEmpty then some ⟨none⟩ else some ⟨some bindings⟩
        error := none }
  | some msg =>
      { project_id := project_id
        resource_name := asset.name
        asset_type := asset.asset_type
        policy := none
        error := some msg }

/-- The gather loop (buckets.py:90-96): results that are exceptions go to
`errors`, the rest to `policies`.  Because `fetch_bucket_iam` catches every
exception itself, every element passed in is in practice `Except.ok`. -/
def gatherResults :
    List (Except String BucketPolicy) → List BucketPolicy × List String
  | [] => ([], [])
  | .ok r :: rest =>
      let acc := gatherResults rest
      (r :: acc.1, acc.2)
  | .error e :: rest =>
      let acc := gatherResults rest
      (acc.1, ("Failed to process bucket: " ++ e) :: acc.2)

/-- `get_bucket_policies` (buckets.py:48-105), its pure core: the fetched
bucket inventory is passed as `response`; the early return at lines 71-77
handles the empty inventory, otherwise every bucket is processed by
`fetch_bucket_iam` and the results gathered. -/
def get_bucket_policies (project_id : String) (response : List BucketAsset)
    (raises : Nat → Option String) : ProjectPoliciesResponse :=
  if response.isEmpty then
    { project_id := project_id, policies := [], total_policies := 0, errors := [] }
  else
    let pe := gatherResults (response.enum.map
      (fun ia => Except.ok (fetch_bucket_iam ia.2 project_id (raises ia.1))))
    { project_id := project_id
      policies := pe.1
      total_policies := pe.1.length
      errors := pe.2 }

end Buckets

namespace Helper

/-- `IAMPolicy` as consumed by the compliance analyzer and the per-zone fetch
path: `version`, `bindings`, `etag` (dataclass import in helper.py; field use
at helper.py:87, 174). -/
structure IAMPolicy where
  version : Option Int
  bindings : List IamBinding
  etag : Option String
deriving Repr, DecidableEq

/-- `PolicyResponse` as constructed at helper.py:179-202 and consumed by
`analyze_compliance_issues`: `project_id`, `resource_name`, `asset_type`,
optional `policy` and optional `error`. -/
structure PolicyResponse where
  project_id : String
  resource_name : String
  asset_type : String
  policy : Option IAMPolicy
  error : Option String
deriving Repr, DecidableEq

/-- `ProjectPoliciesResponse` as assembled at helper.py:305-310. -/
structure ProjectPoliciesResponse where
  project_id : String
  policies : List PolicyResponse
  total_policies : Nat
  errors : List String
deriving Repr, DecidableEq

/-- The aggregation loop of `fetch_iam_policies_for_project` (helper.py:282-291)
over completed per-zone tasks: each task is the zone name paired with either an
exception message or the `(policies, errors, instance_count)` triple returned
by `process_zone_instances`. -/
def aggregateZones :
    List (String × Except String (List PolicyResponse × List String × Nat)) →
      List PolicyResponse × List String × Nat
  | [] => ([], [], 0)
  | (zone, .error e) :: rest =>
      let acc := aggregateZones rest
      (acc.1, ("Failed to process zone " ++ zone ++ ": " ++ e) :: acc.2.1, acc.2.2)
  | (_, .ok (ps, es, n)) :: rest =>
      let acc := aggregateZones rest
      (ps ++ acc.1, es ++ acc.2.1, n + acc.2.2)

/-- `fetch_iam_policies_for_project` (helper.py:254-313), its pure aggregation
core; the response is assembled at helper.py:305-310 with
`total_policies = len(all_policies)`. -/
def fetch_iam_policies_for_project (project_id : String)
    (zone_results :
      List (String × Except String (List PolicyResponse × List String × Nat))) :
    ProjectPoliciesResponse :=
  let acc := aggregateZones zone_results
  { project_id := project_id
    policies := acc.1
    total_policies := acc.1.length
    errors := acc.2.1 }

/-- `ComplianceIssue` as constructed at helper.py:92-100 and 119-127. -/
structure ComplianceIssue where
  resource_name : String
  asset_type : String
  issue_type : String
  severity : String
  description : String
  role : String
  members : List String
deriving Repr, DecidableEq

/-- `ComplianceAnalysisResponse` as assembled at helper.py:146-152; `summary`
is the fixed-key dict of helper.py:130-135 kept in insertion order. -/
structure ComplianceAnalysisResponse where
  project_id : String
  total_resources_analyzed : Nat
  issues_found : List ComplianceIssue
  summary : List (String × Nat)
  recommendations : List String
deriving Repr, DecidableEq

/-- Membership test of the public-access check (helper.py:89):
`m in ["allUsers", "allAuthenticatedUsers"]`. -/
def isPublicMember (m : String) : Bool :=
  m == "allUsers" || m == "allAuthenticatedUsers"

/-- The cross-project / external-domain test of helper.py:104-116 applied to
one member. -/
def isCrossProjectMember (project_id m : String) : Bool :=
  if pyStartsWith m "user:" || pyStartsWith m "serviceAccount:"
      || pyStartsWith m "group:" then
    if pyContains m "@" then
      let domain_part := (pySplitChar m '@').getD 1 ""
      if pyContains domain_part ".iam.gserviceaccount.com" then
        pyReplace domain_part ".iam.gserviceaccount.com" "" != project_id
      else
        !(pyEndsWith domain_part ".google.com"
          || pyEndsWith domain_part ".googleusercontent.com")
    else false
  else false

/-- The body of `for binding in policy_response.policy.bindings:`
(helper.py:87-127): a public-access issue when any member is a reserved public
identity, then a cross-project issue when any member is external. -/
def bindingIssues (project_id : String) (pr : PolicyResponse)
    (b : IamBinding) : List ComplianceIssue :=
  let public_members := b.members.filter isPublicMember
  let publicIssues : List ComplianceIssue :=
    if public_members.isEmpty then []
    else
      [{ resource_name := pr.resource_name
         asset_type := pr.asset_type
         issue_type := "public_access"
         severity := if public_members.contains "allUsers" then "high" else "medium"
         description := "Resource has public access via "
           ++ String.intercalate ", " public_members
         role := b.role
         members := public_members }]
  let cross_project_members := b.members.filter (isCrossProjectMember project_id)
  let crossIssues : List ComplianceIssue :=
    if cross_project_members.isEmpty then []
    else
      [{ resource_name := pr.resource_name
         asset_type := pr.asset_type
         issue_type := "cross_project_access"
         severity := "medium"
         description := "Resource has cross-project or external access"
         role := b.role
         members := cross_project_members }]
  publicIssues ++ crossIssues

/-- Contribution of one record to `issues` (helper.py:83-127): a record with a
falsy policy (`None`) or a truthy `error` is skipped by the `continue`. -/
def recordIssues (project_id : String) (pr : PolicyResponse) :
    List ComplianceIssue :=
  match pr.policy with
  | none => []
  | some p =>
      if pyTruthyStr pr.error then []
      else p.bindings.flatMap (bindingIssues project_id pr)

/-- `analyze_compliance_issues` (helper.py:79-152). -/
def analyze_compliance_issues (project_id : String)
    (policies : List PolicyResponse) : ComplianceAnalysisResponse :=
  let issues := policies.flatMap (recordIssues project_id)
  let publicCount := (issues.filter (fun i => i.issue_type == "public_access")).length
  let crossCount :=
    (issues.filter (fun i => i.issue_type == "cross_project_access")).length
  let highCount := (issues.filter (fun i => i.severity == "high")).length
  let mediumCount := (issues.filter (fun i => i.severity == "medium")).length
  let recommendations :=
    (if publicCount > 0 then
      ["Review and restrict public access (allUsers/allAuthenticatedUsers) where not necessary"]
     else []) ++
    (if crossCount > 0 then
      ["Audit cross-project access and ensure it follows principle of least privilege"]
     else []) ++
    (if highCount > 0 then
      ["Prioritize fixing high-severity issues (allUsers access)"]
     else [])
  { project_id := project_id
    total_resources_analyzed :=
      (policies.filter (fun p => p.policy.isSome && !(pyTruthyStr p.error))).length
    issues_found := issues
    summary := [("public_access", publicCount), ("cross_project_access", crossCount),
      ("high_severity", highCount), ("medium_severity", mediumCount)]
    recommendations := recommendations }

/-- Claim-side description of the public-access issues a single binding should
produce: one issue when some member is one of the two reserved public
identities, listing exactly those members, with severity `"high"` when
`"allUsers"` is among the binding's members and `"medium"` otherwise. -/
def specPublicIssues (pr : PolicyResponse) (b : IamBinding) :
    List ComplianceIssue :=
  let pub := b.members.filter isPublicMember
  if pub.isEmpty then []
  else
    [{ resource_name := pr.resource_name
       asset_type := pr.asset_type
       issue_type := "public_access"
       severity := if "allUsers" ∈ b.members then "high" else "medium"
       description := "Resource has public access via " ++ String.intercalate ", " pub
       role := b.role
       members := pub }]

end Helper

/-- When no loop iteration raises, the merge loop emits exactly one record per
metadata asset, in order, and records no errors. -/
theorem vmMergeLoop_all_ok (project_id : String) (d : String → Option VmIamPolicy)
    (raises : Nat → Option String) (h : ∀ j, raises j = none) :
    ∀ (i : Nat) (l : List ResourceAsset),
      vmMergeLoop project_id d raises i l = (l.map (vmRecordOf project_id d), []) := by
  intro i l
  induction l generalizing i with
  | nil => rfl
  | cons a rest ih =>
      simp only [vmMergeLoop, ih (i + 1), h i, List.map_cons]

/-- Each loop iteration contributes to exactly one of the two output lists. -/
theorem vmMergeLoop_length (project_id : String) (d : String → Option VmIamPolicy)
    (raises : Nat → Option String) :
    ∀ (i : Nat) (l : List ResourceAsset),
      (vmMergeLoop project_id d raises i l).1.length
        + (vmMergeLoop project_id d raises i l).2.length = l.length := by
  intro i l
  induction l generalizing i with
  | nil => rfl
  | cons a rest ih =>
      have h := ih (i + 1)
      simp only [vmMergeLoop]
      cases hr : raises i with
      | none => simp only [hr, List.length_cons]; omega
      | some msg => simp only [hr, List.length_cons]; omega

/-- The number of emitted records equals the number of loop indices at which
the body did not raise. -/
theorem vmMergeLoop_ok_count (project_id : String) (d : String → Option VmIamPolicy)
    (raises : Nat → Option String) :
    ∀ (i : Nat) (l : List ResourceAsset),
      (vmMergeLoop project_id d raises i l).1.length
        = ((List.range' i l.length).filter (fun j => (raises j).isNone)).length := by
  intro i l
  induction l generalizing i with
  | nil => rfl
  | cons a rest ih =>
      simp only [vmMergeLoop, List.range', List.filter]
      cases hr : raises i with
      | none => simp [hr, ih (i + 1)]
      | some msg => simp [hr, ih (i + 1)]

/-- Every record the merge loop emits has its `error` field equal to `None`. -/
theorem vmMergeLoop_error_none (project_id : String) (d : String → Option VmIamPolicy)
    (raises : Nat → Option String) :
    ∀ (i : Nat) (l : List ResourceAsset) (r : VMPolicy),
      r ∈ (vmMergeLoop project_id d raises i l).1 → r.error = none := by
  intro i l
  induction l generalizing i with
  | nil => intro r hr; simp [vmMergeLoop] at hr
  | cons a rest ih =>
      intro r hr
      simp only [vmMergeLoop] at hr
      cases hraise : raises i with
      | none =>
          rw [hraise] at hr
          rcases List.mem_cons.mp hr with h | h
          · subst h; rfl
          · exact ih (i + 1) r h
      | some msg =>
          rw [hraise] at hr
          exact ih (i + 1) r hr

/-- C1: for every metadata asset sequence M and IAM-policy asset sequence I,
when no per-entry processing exception occurs, `fetch_vm_iam_policies_asset_api`
emits exactly `len(M)` records, one per entry of M in the same order as M
(same resource names and asset types, positionally); entries of I whose name
matches no entry of M contribute no record, since every record comes from an
entry of M. -/
theorem vm_merge_completeness (project_id : String) (M : List ResourceAsset)
    (I : List IamAsset) (raises : Nat → Option String)
    (h : ∀ i, raises i = none) :
    (fetch_vm_iam_policies_asset_api project_id M I raises).policies.length = M.length ∧
    (fetch_vm_iam_policies_asset_api project_id M I raises).policies.map
        (fun r => (r.resource_name, r.asset_type))
      = M.map (fun a => (a.name, a.asset_type)) := by
  simp only [fetch_vm_iam_policies_asset_api]
  rw [vmMergeLoop_all_ok project_id (iamDictLookup I) raises h 0 M]
  constructor
  · simp
  · simp [vmRecordOf]

/-- Witness for C1 at a concrete input: two VM assets, one unmatched IAM row. -/
theorem vm_merge_completeness_witness :
    (fetch_vm_iam_policies_asset_api "p"
        [⟨"vm1", "t"⟩, ⟨"vm2", "t"⟩]
        [⟨"other", some ⟨[⟨"roles/viewer", ["user:a@b.co"]⟩]⟩⟩]
        (fun _ => none)).policies.length = 2 ∧
    (fetch_vm_iam_policies_asset_api "p"
        [⟨"vm1", "t"⟩, ⟨"vm2", "t"⟩]
        [⟨"other", some ⟨[⟨"roles/viewer", ["user:a@b.co"]⟩]⟩⟩]
        (fun _ => none)).policies.map (fun r => (r.resource_name, r.asset_type))
      = [("vm1", "t"), ("vm2", "t")] := by
  have h := vm_merge_completeness "p"
    [⟨"vm1", "t"⟩, ⟨"vm2", "t"⟩]
    [⟨"other", some ⟨[⟨"roles/viewer", ["user:a@b.co"]⟩]⟩⟩]
    (fun _ => none) (fun _ => rfl)
  simpa using h

/-- C2 counterexample: a single metadata entry whose processing raises is
dropped from `policies` (the response has 0 records, not `len(M) = 1`), and
the error message lands in the response-level `errors` list, not in a
per-resource `error` field. -/
theorem vm_merge_drop_on_failure :
    (fetch_vm_iam_policies_asset_api "p" [⟨"vm1", "compute.googleapis.com/Instance"⟩] []
        (fun _ => some "boom")).policies = [] ∧
    (fetch_vm_iam_policies_asset_api "p" [⟨"vm1", "compute.googleapis.com/Instance"⟩] []
        (fun _ => some "boom")).policies.length ≠ 1 ∧
    (fetch_vm_iam_policies_asset_api "p" [⟨"vm1", "compute.googleapis.com/Instance"⟩] []
        (fun _ => some "boom")).errors
      = ["Failed to process VM instance vm1: boom"] := by
  refine ⟨rfl, by decide, rfl⟩

/-- C2 amended: if processing a metadata entry raises, the entry is dropped
from `policies` and the error message is appended to the response-level
`errors` list instead; every emitted record has `error = None`, the record
count equals the number of entries whose processing did not raise, and
records plus errors account for all of M. -/
theorem vm_merge_failure_routing (project_id : String) (M : List ResourceAsset)
    (I : List IamAsset) (raises : Nat → Option String) :
    (fetch_vm_iam_policies_asset_api project_id M I raises).policies.length
        = ((List.range M.length).filter (fun i => (raises i).isNone)).length ∧
    (fetch_vm_iam_policies_asset_api project_id M I raises).policies.length
        + (fetch_vm_iam_policies_asset_api project_id M I raises).errors.length
      = M.length ∧
    ∀ r ∈ (fetch_vm_iam_policies_asset_api project_id M I raises).policies,
      r.error = none := by
  refine ⟨?_, ?_, ?_⟩
  · have h := vmMergeLoop_ok_count project_id (iamDictLookup I) raises 0 M
    simpa [fetch_vm_iam_policies_asset_api, List.range_eq_range'] using h
  · exact vmMergeLoop_length project_id (iamDictLookup I) raises 0 M
  · intro r hr
    exact vmMergeLoop_error_none project_id (iamDictLookup I) raises 0 M r hr

/-- Witness for C2's amended statement: two entries, the first raises. -/
theorem vm_merge_failure_routing_witness :
    (fetch_vm_iam_policies_asset_api "p" [⟨"vm1", "t"⟩, ⟨"vm2", "t"⟩] []
        (fun i => if i = 0 then some "boom" else none)).policies.length = 1 ∧
    (fetch_vm_iam_policies_asset_api "p" [⟨"vm1", "t"⟩, ⟨"vm2", "t"⟩] []
        (fun i => if i = 0 then some "boom" else none)).errors.length = 1 := by
  obtain ⟨h1, h2, -⟩ := vm_merge_failure_routing "p" [⟨"vm1", "t"⟩, ⟨"vm2", "t"⟩] []
    (fun i => if i = 0 then some "boom" else none)
  have h1' : (fetch_vm_iam_policies_asset_api "p" [⟨"vm1", "t"⟩, ⟨"vm2", "t"⟩] []
      (fun i => if i = 0 then some "boom" else none)).policies.length = 1 := by
    rw [h1]; decide
  simp only [List.length_cons, List.length_nil] at h2
  exact ⟨h1', by omega⟩

/-- Rebuilding a binding dict entrywise is the identity. -/
theorem bindings_map_id (l : List IamBinding) :
    l.map (fun b => (⟨b.role, b.members⟩ : IamBinding)) = l := by
  have h : (fun b : IamBinding => (⟨b.role, b.members⟩ : IamBinding)) = id := rfl
  rw [h, List.map_id]

/-- A name carried by no entry of the IAM asset list is absent from `iam_dict`. -/
theorem iamDictLookup_eq_none (I : List IamAsset) (n : String)
    (h : ∀ a ∈ I, a.name ≠ n) : iamDictLookup I n = none := by
  induction I with
  | nil => rfl
  | cons a rest ih =>
      have hrest := ih (fun a' ha' => h a' (List.mem_cons_of_mem a ha'))
      have ha : a.name ≠ n := h a (List.mem_cons_self a rest)
      simp only [iamDictLookup, hrest]
      rw [if_neg (fun hn => ha hn.symm)]

/-- With pairwise-distinct names in the IAM asset list, `iam_dict` lookup of a
member's name returns exactly that member's `iam_policy`. -/
theorem iamDictLookup_eq_of_mem (I : List IamAsset) (a : IamAsset)
    (hnd : (I.map (fun x => x.name)).Nodup) (ha : a ∈ I) :
    iamDictLookup I a.name = a.iam_policy := by
  induction I with
  | nil => cases ha
  | cons b rest ih =>
      rcases List.mem_cons.mp ha with h | h
      · subst h
        have hnotin : ∀ x ∈ rest, x.name ≠ a.name := by
          intro x hx hxe
          apply (List.nodup_cons.mp hnd).1
          show a.name ∈ List.map (fun x => x.name) rest
          rw [← hxe]
          exact List.mem_map_of_mem (fun x => x.name) hx
        simp [iamDictLookup, iamDictLookup_eq_none rest a.name hnotin]
      · have hrest := ih (List.nodup_cons.mp hnd).2 h
        have hbne : b.name ≠ a.name := by
          intro he
          apply (List.nodup_cons.mp hnd).1
          show b.name ∈ List.map (fun x => x.name) rest
          rw [he]
          exact List.mem_map_of_mem (fun x => x.name) h
        simp only [iamDictLookup, hrest]
        cases hp : a.iam_policy with
        | some p => rfl
        | none =>
            show (if a.name = b.name then b.iam_policy else none) = none
            rw [if_neg (fun hn => hbne hn.symm)]

/-- The `policy` field of a merged record is `extract_bindings` of the
dictionary lookup of the asset's name. -/
theorem vmRecordOf_policy (project_id : String) (d : String → Option VmIamPolicy)
    (asset : ResourceAsset) :
    (vmRecordOf project_id d asset).policy = extract_bindings (d asset.name) := by
  cases h : d asset.name <;> simp [vmRecordOf, h, extract_bindings]

/-- C3: in an exception-free run, for a resource name carried by entry `i` of M
and also by a (unique-named) entry of I whose policy has a non-empty bindings
list, the emitted record at position `i` has `policy.bindings` equal to exactly
that entry's bindings. -/
theorem vm_merge_bindings_exact (project_id : String) (M : List ResourceAsset)
    (I : List IamAsset) (raises : Nat → Option String)
    (hok : ∀ j, raises j = none)
    (hnd : (I.map (fun x => x.name)).Nodup)
    (a : IamAsset) (ha : a ∈ I) (p : VmIamPolicy) (hp : a.iam_policy = some p)
    (hne : p.bindings ≠ [])
    (i : Nat) (asset : ResourceAsset) (hMi : M[i]? = some asset)
    (hname : asset.name = a.name) :
    ∃ r, (fetch_vm_iam_policies_asset_api project_id M I raises).policies[i]?
        = some r ∧
      r.policy = some ⟨p.bindings⟩ ∧ r.resource_name = asset.name := by
  simp only [fetch_vm_iam_policies_asset_api]
  rw [vmMergeLoop_all_ok project_id (iamDictLookup I) raises hok 0 M]
  refine ⟨vmRecordOf project_id (iamDictLookup I) asset, ?_, ?_, rfl⟩
  · simp [List.getElem?_map, hMi]
  · rw [vmRecordOf_policy, hname, iamDictLookup_eq_of_mem I a hnd ha, hp]
    simp only [extract_bindings, List.isEmpty_iff]
    rw [if_neg hne, bindings_map_id]

/-- Witness for C3: one VM whose name matches the one IAM row. -/
theorem vm_merge_bindings_exact_witness :
    ∃ r, (fetch_vm_iam_policies_asset_api "p" [⟨"vm1", "t"⟩]
        [⟨"vm1", some ⟨[⟨"roles/viewer", ["user:a@b.co"]⟩]⟩⟩]
        (fun _ => none)).policies[0]? = some r ∧
      r.policy = some ⟨[⟨"roles/viewer", ["user:a@b.co"]⟩]⟩ ∧
      r.resource_name = "vm1" := by
  exact vm_merge_bindings_exact "p" [⟨"vm1", "t"⟩]
    [⟨"vm1", some ⟨[⟨"roles/viewer", ["user:a@b.co"]⟩]⟩⟩] (fun _ => none)
    (fun _ => rfl) (by decide)
    ⟨"vm1", some ⟨[⟨"roles/viewer", ["user:a@b.co"]⟩]⟩⟩ (by decide)
    ⟨[⟨"roles/viewer", ["user:a@b.co"]⟩]⟩ rfl (by decide) 0 ⟨"vm1", "t"⟩ rfl rfl

/-- C4: in an exception-free run with unique names in I, the record emitted for
entry `i` of M has `policy = None` iff no entry of I carries that name with a
set `iam_policy` whose bindings list is non-empty — a name absent from I and a
name present with an empty bindings list both yield `policy = None`. -/
theorem vm_merge_absence_semantics (project_id : String) (M : List ResourceAsset)
    (I : List IamAsset) (raises : Nat → Option String)
    (hok : ∀ j, raises j = none)
    (hnd : (I.map (fun x => x.name)).Nodup)
    (i : Nat) (asset : ResourceAsset) (hMi : M[i]? = some asset) :
    ∃ r, (fetch_vm_iam_policies_asset_api project_id M I raises).policies[i]?
        = some r ∧
      (r.policy = none ↔
        ∀ a ∈ I, a.name = asset.name → ∀ p, a.iam_policy = some p →
          p.bindings = []) := by
  simp only [fetch_vm_iam_policies_asset_api]
  rw [vmMergeLoop_all_ok project_id (iamDictLookup I) raises hok 0 M]
  refine ⟨vmRecordOf project_id (iamDictLookup I) asset, ?_, ?_⟩
  · simp [List.getElem?_map, hMi]
  · rw [vmRecordOf_policy]
    by_cases hex : ∃ a ∈ I, a.name = asset.name
    · obtain ⟨a, haI, han⟩ := hex
      have huniq : ∀ a' ∈ I, a'.name = asset.name → a' = a := by
        intro a' ha' hn'
        exact List.inj_on_of_nodup_map hnd ha' haI (by rw [hn', han])
      have hlook : iamDictLookup I asset.name = a.iam_policy := by
        rw [← han]
        exact iamDictLookup_eq_of_mem I a hnd haI
      rw [hlook]
      cases hp : a.iam_policy with
      | none =>
          refine iff_of_true rfl ?_
          intro a' ha' hn' p hp'
          have he := huniq a' ha' hn'
          rw [he, hp] at hp'
          cases hp'
      | some p =>
          simp only [extract_bindings]
          by_cases hb : p.bindings.isEmpty
          · rw [if_pos hb]
            refine iff_of_true rfl ?_
            intro a' ha' hn' q hq
            have he := huniq a' ha' hn'
            rw [he, hp] at hq
            cases hq
            exact List.isEmpty_iff.mp hb
          · rw [if_neg hb]
            refine iff_of_false (by simp) ?_
            intro hall
            have hbe := hall a haI han p hp
            exact hb (by rw [hbe]; rfl)
    · push_neg at hex
      rw [iamDictLookup_eq_none I asset.name hex]
      refine iff_of_true rfl ?_
      intro a ha hn
      exact absurd hn (hex a ha)

/-- Witness for C4: one matched name with empty bindings yields `policy = None`. -/
theorem vm_merge_absence_semantics_witness :
    ∃ r, (fetch_vm_iam_policies_asset_api "p" [⟨"vm1", "t"⟩]
        [⟨"vm1", some ⟨[]⟩⟩] (fun _ => none)).policies[0]? = some r ∧
      (r.policy = none ↔
        ∀ a ∈ ([⟨"vm1", some ⟨[]⟩⟩] : List IamAsset), a.name = "vm1" →
          ∀ p, a.iam_policy = some p → p.bindings = []) := by
  exact vm_merge_absence_semantics "p" [⟨"vm1", "t"⟩] [⟨"vm1", some ⟨[]⟩⟩]
    (fun _ => none) (fun _ => rfl) (by decide) 0 ⟨"vm1", "t"⟩ rfl

/-- The ancestors fold is characterised by the LAST entry matching each branch
condition, with the initial value as fallback. -/
theorem extract_foldl_lastMatch (l : List String) (info : AncestorsInfo) :
    l.foldl extractStep info =
      ⟨((lastMatch isProjAncestor l).map ancestorSeg).getD info.project_number,
       ((lastMatch isOrgAncestor l).map ancestorSeg).getD info.organization_id⟩ := by
  induction l generalizing info with
  | nil => simp [lastMatch]
  | cons a rest ih =>
      rw [List.foldl_cons, ih]
      cases hp : pyStartsWith a "projects/" <;>
        cases ho : pyStartsWith a "organizations/" <;>
          cases hl1 : lastMatch isProjAncestor rest <;>
            cases hl2 : lastMatch isOrgAncestor rest <;>
              simp [extractStep, lastMatch, isProjAncestor, isOrgAncestor,
                hp, ho, hl1, hl2]

/-- C5 counterexample: with two `projects/` ancestors the LAST one wins, not
the first as the claim states. -/
theorem extract_ancestors_first_match_refuted :
    (extract_ancestors_info ["projects/1", "projects/2"]).project_number = "2" ∧
    (extract_ancestors_info ["projects/1", "projects/2"]).project_number ≠ "1" := by
  exact ⟨rfl, by decide⟩

/-- C5 amended: ancestor extraction returns the id segment of the LAST entry
matching each branch (`projects/` for `project_number`; `organizations/` — the
`elif` requires it not to start with `projects/`, which no `organizations/…`
string does — for `organization_id`), with the literal `"unknown"` when no
entry matches; the concrete example of the claim still yields `project_number
= "789"` and `organization_id = "123"`. -/
theorem extract_ancestors_last_match_spec :
    (∀ ancestors : List String,
      extract_ancestors_info ancestors =
        ⟨((lastMatch isProjAncestor ancestors).map ancestorSeg).getD "unknown",
         ((lastMatch isOrgAncestor ancestors).map ancestorSeg).getD "unknown"⟩) ∧
    extract_ancestors_info ["organizations/123", "folders/456", "projects/789"]
      = ⟨"789", "123"⟩ := by
  constructor
  · intro ancestors
    exact extract_foldl_lastMatch ancestors ⟨"unknown", "unknown"⟩
  · rfl

/-- C6 counterexample: for a 2-segment Instance name the parser indeed does not
raise and yields `zone = "unknown"`, but `instance_name` is the LAST segment
(`"b"` here), not `"unknown"` as the claim states. -/
theorem vm_instance_two_segment_name_refuted :
    (process_vm_instance_asset "folders/111" "t0"
        ⟨"a/b", "compute.googleapis.com/Instance", [], none⟩).zone = "unknown" ∧
    (process_vm_instance_asset "folders/111" "t0"
        ⟨"a/b", "compute.googleapis.com/Instance", [], none⟩).instance_name = "b" ∧
    (process_vm_instance_asset "folders/111" "t0"
        ⟨"a/b", "compute.googleapis.com/Instance", [],
          none⟩).instance_name ≠ "unknown" := by
  exact ⟨rfl, rfl, by decide⟩

/-- C6 amended: for an Instance asset whose canonical name has only 2
slash-separated segments, record processing does not raise (the embedding is a
total function) and yields `zone = "unknown"`, while `instance_name` is the
last segment of the name. -/
theorem vm_instance_two_segment_name (parent now : String) (asset : FolderAsset)
    (h : (pySplitChar asset.name '/').length = 2) :
    (process_vm_instance_asset parent now asset).zone = "unknown" ∧
    (process_vm_instance_asset parent now asset).instance_name
      = ((pySplitChar asset.name '/').getLast?).getD "unknown" := by
  constructor
  · simp [process_vm_instance_asset, h]
  · simp [process_vm_instance_asset, h]

/-- Witness for C6's amended statement at the concrete name `"a/b"`. -/
theorem vm_instance_two_segment_name_witness :
    (process_vm_instance_asset "folders/111" "t0"
        ⟨"a/b", "compute.googleapis.com/Instance", [], none⟩).zone = "unknown" ∧
    (process_vm_instance_asset "folders/111" "t0"
        ⟨"a/b", "compute.googleapis.com/Instance", [], none⟩).instance_name
      = ((pySplitChar "a/b" '/').getLast?).getD "unknown" := by
  exact vm_instance_two_segment_name "folders/111" "t0"
    ⟨"a/b", "compute.googleapis.com/Instance", [], none⟩ rfl

namespace Buckets

/-- Gathering a list with no exception values keeps every record and records
no errors. -/
theorem gatherResults_all_ok (l : List BucketPolicy) :
    gatherResults (l.map Except.ok) = (l, []) := by
  induction l with
  | nil => rfl
  | cons r rest ih => simp [gatherResults, ih]

/-- The bucket response contains one record per inventory entry, in inventory
order, and an empty `errors` list. -/
theorem get_bucket_policies_characterisation (project_id : String)
    (response : List BucketAsset) (raises : Nat → Option String) :
    (get_bucket_policies project_id response raises).policies
        = response.enum.map (fun ia => fetch_bucket_iam ia.2 project_id (raises ia.1)) ∧
    (get_bucket_policies project_id response raises).errors = [] := by
  unfold get_bucket_policies
  by_cases h : response.isEmpty
  · rw [if_pos h]
    rw [List.isEmpty_iff.mp h]
    exact ⟨rfl, rfl⟩
  · rw [if_neg h]
    have hmap : response.enum.map
        (fun ia => (Except.ok (fetch_bucket_iam ia.2 project_id (raises ia.1)) :
          Except String BucketPolicy))
      = (response.enum.map
          (fun ia => fetch_bucket_iam ia.2 project_id (raises ia.1))).map
            (Except.ok : BucketPolicy → Except String BucketPolicy) := by
      rw [List.map_map]
      rfl
    simp only [hmap, gatherResults_all_ok]
    exact ⟨trivial, trivial⟩

/-- The `error` field of a fetched bucket record is exactly the raise oracle. -/
theorem fetch_bucket_iam_error (asset : BucketAsset) (project_id : String)
    (raise? : Option String) :
    (fetch_bucket_iam asset project_id raise?).error = raise? := by
  cases raise? <;> rfl

end Buckets

/-- C7 counterexample: 3 buckets, bucket index 1 raising PermissionDenied in
its per-bucket processing.  The response has 3 records and the failing record
carries `error = "Permission denied"`, but the `errors` list has 0 entries,
not 1: `fetch_bucket_iam` converts the exception into the record's own error
field and nothing is ever routed to the response-level `errors`. -/
theorem bucket_permission_denied_errors_refuted :
    (Buckets.get_bucket_policies "p"
        [⟨"b0", "storage.googleapis.com/Bucket",
            some ⟨[⟨"roles/storage.admin", ["user:a@b.co"]⟩]⟩⟩,
         ⟨"b1", "storage.googleapis.com/Bucket", none⟩,
         ⟨"b2", "storage.googleapis.com/Bucket", none⟩]
        (fun i => if i = 1 then some "Permission denied" else none)).policies.length
      = 3 ∧
    (Buckets.get_bucket_policies "p"
        [⟨"b0", "storage.googleapis.com/Bucket",
            some ⟨[⟨"roles/storage.admin", ["user:a@b.co"]⟩]⟩⟩,
         ⟨"b1", "storage.googleapis.com/Bucket", none⟩,
         ⟨"b2", "storage.googleapis.com/Bucket", none⟩]
        (fun i => if i = 1 then some "Permission denied" else none)).policies.map
          (fun r => r.error)
      = [none, some "Permission denied", none] ∧
    (Buckets.get_bucket_policies "p"
        [⟨"b0", "storage.googleapis.com/Bucket",
            some ⟨[⟨"roles/storage.admin", ["user:a@b.co"]⟩]⟩⟩,
         ⟨"b1", "storage.googleapis.com/Bucket", none⟩,
         ⟨"b2", "storage.googleapis.com/Bucket", none⟩]
        (fun i => if i = 1 then some "Permission denied" else none)).errors.length
      ≠ 1 := by
  exact ⟨rfl, rfl, by decide⟩

/-- C7 amended: over any bucket inventory the collection emits one record per
bucket; a bucket whose per-bucket IAM processing raises still yields a record,
carrying the exception message in its own `error` field, while the
response-level `errors` list stays empty. -/
theorem bucket_collection_isolation (project_id : String)
    (response : List Buckets.BucketAsset) (raises : Nat → Option String) :
    (Buckets.get_bucket_policies project_id response raises).policies.length
        = response.length ∧
    (Buckets.get_bucket_policies project_id response raises).errors = [] ∧
    ∀ i, i < response.length →
      ∃ r, (Buckets.get_bucket_policies project_id response raises).policies[i]?
          = some r ∧
        r.error = raises i := by
  obtain ⟨hp, he⟩ :=
    Buckets.get_bucket_policies_characterisation project_id response raises
  refine ⟨?_, he, ?_⟩
  · rw [hp]
    simp
  · intro i hi
    refine ⟨Buckets.fetch_bucket_iam (response.get ⟨i, hi⟩) project_id (raises i),
      ?_, Buckets.fetch_bucket_iam_error _ _ _⟩
    rw [hp]
    simp only [List.getElem?_map, List.getElem?_enum]
    rw [List.getElem?_eq_getElem hi]
    simp [List.get_eq_getElem]

/-- Witness for C7's amended statement: one bucket whose processing raises. -/
theorem bucket_collection_isolation_witness :
    (0 : Nat) < 1 ∧
    ∃ r, (Buckets.get_bucket_policies "p" [⟨"b0", "t", none⟩]
        (fun _ => some "boom")).policies[0]? = some r ∧
      r.error = some "boom" := by
  refine ⟨by decide, ?_⟩
  have h := (bucket_collection_isolation "p" [⟨"b0", "t", none⟩]
    (fun _ => some "boom")).2.2 0 (by decide)
  simpa using h

namespace Helper

/-- Filtering one binding's issues down to `public_access` yields exactly the
claim-side public issues: the cross-project issue (if any) is filtered away
and the public issue (if any) survives unchanged. -/
theorem bindingIssues_filter_public (project_id : String) (pr : PolicyResponse)
    (b : IamBinding) :
    (bindingIssues project_id pr b).filter (fun i => i.issue_type == "public_access")
      = specPublicIssues pr b := by
  unfold bindingIssues specPublicIssues
  rw [List.filter_append]
  have hcross : ∀ cm : List String,
      (if cm.isEmpty then ([] : List ComplianceIssue)
       else [{ resource_name := pr.resource_name, asset_type := pr.asset_type,
               issue_type := "cross_project_access", severity := "medium",
               description := "Resource has cross-project or external access",
               role := b.role, members := cm }]).filter
        (fun i => i.issue_type == "public_access") = [] := by
    intro cm
    by_cases h : cm.isEmpty <;> simp [h]
  rw [hcross, List.append_nil]
  by_cases hpub : (b.members.filter isPublicMember).isEmpty
  · simp [hpub]
  · rw [if_neg hpub, if_neg hpub]
    have hiff : ((b.members.filter isPublicMember).contains "allUsers" = true)
        ↔ "allUsers" ∈ b.members := by
      rw [List.elem_iff, List.mem_filter]
      simp [isPublicMember]
    have hsev :
        (if (b.members.filter isPublicMember).contains "allUsers"
          then ("high" : String) else "medium")
        = (if "allUsers" ∈ b.members then ("high" : String) else "medium") := by
      by_cases hm : "allUsers" ∈ b.members
      · rw [if_pos (hiff.mpr hm), if_pos hm]
      · rw [if_neg (fun hc => hm (hiff.mp hc)), if_neg hm]
    simp [hsev, isPublicMember]

/-- C8: the `public_access` issues found by the analyzer are exactly, record by
record and binding by binding, the claim-side public issues: each binding of an
analyzed record (one with a policy and no truthy error) whose members include
`"allUsers"` or `"allAuthenticatedUsers"` yields one issue listing exactly
those members, severity `"high"` when `"allUsers"` is among them and
`"medium"` otherwise; bindings with neither literal yield none. -/
theorem analyzer_public_access_exact (project_id : String)
    (policies : List PolicyResponse) :
    ((analyze_compliance_issues project_id policies).issues_found.filter
        (fun i => i.issue_type == "public_access"))
      = policies.flatMap (fun pr =>
          match pr.policy with
          | some p =>
              if pyTruthyStr pr.error then []
              else p.bindings.flatMap (specPublicIssues pr)
          | none => []) := by
  show ((policies.flatMap (recordIssues project_id)).filter
      (fun i => i.issue_type == "public_access")) = _
  rw [List.filter_flatMap]
  congr 1
  funext pr
  unfold recordIssues
  cases hpol : pr.policy with
  | none => rfl
  | some p =>
      by_cases herr : pyTruthyStr pr.error
      · simp [herr]
      · simp only [herr, Bool.false_eq_true, if_false, if_neg]
        rw [List.filter_flatMap]
        congr 1
        funext b
        exact bindingIssues_filter_public project_id pr b

/-- C9: the analyzer skips any record whose policy is `None` or whose `error`
field is truthy — such a record contributes no issues of any type — and
`total_resources_analyzed` counts exactly the records with a policy and no
truthy error. -/
theorem analyzer_skip_semantics (project_id : String)
    (policies : List PolicyResponse) :
    (analyze_compliance_issues project_id policies).total_resources_analyzed
        = (policies.filter
            (fun pr => pr.policy.isSome && !(pyTruthyStr pr.error))).length ∧
    ∀ pr : PolicyResponse, (pr.policy = none ∨ pyTruthyStr pr.error = true) →
      recordIssues project_id pr = [] := by
  refine ⟨rfl, ?_⟩
  intro pr h
  unfold recordIssues
  rcases h with h | h
  · rw [h]
  · cases hpol : pr.policy with
    | none => rfl
    | some p => simp [h]

/-- Witness for C9: an absent policy is excluded from the count; a record with
an error contributes no issues. -/
theorem analyzer_skip_semantics_witness :
    (analyze_compliance_issues "p"
        [⟨"p", "r", "t", none, none⟩]).total_resources_analyzed = 0 ∧
    recordIssues "p" ⟨"p", "r", "t",
        some ⟨none, [⟨"roles/viewer", ["allUsers"]⟩], none⟩, some "err"⟩ = [] := by
  obtain ⟨h1, h2⟩ := analyzer_skip_semantics "p" [⟨"p", "r", "t", none, none⟩]
  constructor
  · rw [h1]; decide
  · exact h2 ⟨"p", "r", "t",
      some ⟨none, [⟨"roles/viewer", ["allUsers"]⟩], none⟩, some "err"⟩ (Or.inr rfl)

end Helper

/-- C10: every response returned by `get_bucket_policies`,
`fetch_vm_iam_policies_asset_api` and `fetch_iam_policies_for_project`
satisfies `total_policies = len(policies)`, and the empty-inventory case of
each yields `policies = []`, `total_policies = 0`, `errors = []`. -/
theorem responses_total_matches_length :
    (∀ (pid : String) (response : List Buckets.BucketAsset)
        (raises : Nat → Option String),
      (Buckets.get_bucket_policies pid response raises).total_policies
        = (Buckets.get_bucket_policies pid response raises).policies.length) ∧
    (∀ (pid : String) (M : List ResourceAsset) (I : List IamAsset)
        (raises : Nat → Option String),
      (fetch_vm_iam_policies_asset_api pid M I raises).total_policies
        = (fetch_vm_iam_policies_asset_api pid M I raises).policies.length) ∧
    (∀ (pid : String)
        (zone_results : List (String ×
          Except String (List Helper.PolicyResponse × List String × Nat))),
      (Helper.fetch_iam_policies_for_project pid zone_results).total_policies
        = (Helper.fetch_iam_policies_for_project pid zone_results).policies.length) ∧
    Buckets.get_bucket_policies "p" [] (fun _ => none)
      = { project_id := "p", policies := [], total_policies := 0, errors := [] } ∧
    fetch_vm_iam_policies_asset_api "p" [] [] (fun _ => none)
      = { project_id := "p", policies := [], total_policies := 0, errors := [] } ∧
    Helper.fetch_iam_policies_for_project "p" []
      = { project_id := "p", policies := [], total_policies := 0, errors := [] } := by
  refine ⟨?_, ?_, ?_, rfl, rfl, rfl⟩
  · intro pid response raises
    unfold Buckets.get_bucket_policies
    split
    · rfl
    · rfl
  · intro pid M I raises
    rfl
  · intro pid zone_results
    rfl

end ComplianceChecks
